import Mathlib

/-!
Verification of the SPOT map core: a shallow embedding of the
proximity-and-affinity engine (distance, affinity scoring, visibility
filtering, marker styling) found in the repository's single source file,
together with theorems settling the specification's claims.

JavaScript strings are embedded as `List Char`; the JS index access
`a[i]`, which yields `undefined` out of range, is embedded as
`List.get? : List Char → Nat → Option Char` (so the JS comparison
`a[i] === b[i]` becomes equality of `Option Char`, with
`none = none` mirroring `undefined === undefined`, which is true).
JS numbers are embedded as real numbers; the integer-valued affinity
score is embedded as `Nat`.
-/

/-- Display mode of the map. The source type is
`type Mode = "wide" | "near" | "3m"`; the `"3m"` literal is named
`threeM` here. -/
inductive Mode
  | wide
  | near
  | threeM
deriving DecidableEq

/-- One presence spot:
`type Spot = { id: string; lat: number; lng: number; mbti: string }`. -/
structure Spot where
  id : String
  lat : ℝ
  lng : ℝ
  mbti : List Char

/-- The sixteen canonical personality tags, the source's `MBTIS` array. -/
def MBTIS : List String :=
  ["INTJ", "INTP", "ENTJ", "ENTP",
   "INFJ", "INFP", "ENFJ", "ENFP",
   "ISTJ", "ISFJ", "ESTJ", "ESFJ",
   "ISTP", "ISFP", "ESTP", "ESFP"]

/-- The source's `clamp = (n, a, b) => Math.max(a, Math.min(b, n))`. -/
def clamp (n a b : ℝ) : ℝ := max a (min b n)

/-- The source's `vibeScore(a, b)`: starting from `s = 0`, for
`i = 0..3` add one whenever `a[i] === b[i]`. Out-of-range access is
`none`, and `none = none` holds, exactly as `undefined === undefined`
does in JS. -/
def vibeScore (a b : List Char) : Nat :=
  (List.range 4).foldl (fun s i => if a.get? i = b.get? i then s + 1 else s) 0

/-- Modelled from the spec's words, for comparison with `vibeScore`:
"count of axis positions (index 0..3) where the two tags agree,
compared character-by-character at corresponding positions" — the
number of positions below 4 that are in range of both tags and carry
equal characters. -/
def specAffinity (a b : List Char) : Nat :=
  (((a.zip b).take 4).filter fun p => p.1 = p.2).length

/-- Insert one scored spot into a list, before the first element whose
score is not larger: this is the unique stable descending placement,
matching the guaranteed-stable JS `sort((a, b) => b.score - a.score)`. -/
def insertDesc (x : Spot × Nat) : List (Spot × Nat) → List (Spot × Nat)
  | [] => [x]
  | y :: ys => if y.2 ≤ x.2 then x :: y :: ys else y :: insertDesc x ys

/-- Stable descending insertion sort on scored spots, the embedding of
the source's `.sort((a, b) => b.score - a.score)` (JS `Array.sort` is
specified stable; stability and sortedness determine the result, and
both are proved below). -/
def sortDesc : List (Spot × Nat) → List (Spot × Nat)
  | [] => []
  | x :: xs => insertDesc x (sortDesc xs)

/-- The source's `scored` list:
`spots.map((s) => ({ s, score: vibeScore(myMbti, s.mbti) })).sort((a, b) => b.score - a.score)`. -/
def scoredList (myMbti : List Char) (spots : List Spot) : List (Spot × Nat) :=
  sortDesc (spots.map fun s => (s, vibeScore myMbti s.mbti))

/-- The source's two-tier threshold:
`let filtered = scored.filter((x) => x.score >= 3).map((x) => x.s);`
`if (filtered.length < 10) filtered = scored.filter((x) => x.score >= 2).map((x) => x.s);`. -/
def rankedFiltered (myMbti : List Char) (spots : List Spot) : List Spot :=
  let scored := scoredList myMbti spots
  let filtered := (scored.filter fun x => 3 ≤ x.2).map Prod.fst
  if filtered.length < 10 then (scored.filter fun x => 2 ≤ x.2).map Prod.fst else filtered

/-- The source's `visibleSpots` memo body: `wide` returns `spots`
unchanged; otherwise rank and filter, then `slice(0, 5)` in `"3m"`
mode and `slice(0, 18)` in `near` mode. -/
def visibleSpots (mode : Mode) (myMbti : List Char) (spots : List Spot) : List Spot :=
  if mode = Mode.wide then spots
  else if mode = Mode.threeM then (rankedFiltered myMbti spots).take 5
  else (rankedFiltered myMbti spots).take 18

/-- The source's `toRad = (d) => (d * Math.PI) / 180` (local to
`distanceMeters` there). -/
noncomputable def toRad (d : ℝ) : ℝ := d * Real.pi / 180

/-- The source's `distanceMeters(aLat, aLng, bLat, bLng)`: haversine
great-circle distance with Earth radius `R = 6371000` m, i.e.
`2 * R * asin(sqrt(sin(dLat/2)^2 + cos(lat1)*cos(lat2)*sin(dLng/2)^2))`. -/
noncomputable def distanceMeters (aLat aLng bLat bLng : ℝ) : ℝ :=
  2 * 6371000 *
    Real.arcsin (Real.sqrt
      (Real.sin (toRad (bLat - aLat) / 2) ^ 2 +
        Real.cos (toRad aLat) * Real.cos (toRad bLat) *
          Real.sin (toRad (bLng - aLng) / 2) ^ 2))

/-- JS `s.charCodeAt(i)` for the in-range accesses the source performs
(`charCodeAt(0)` and `charCodeAt(3)` of a tag): the character code at
position `i`. Out of range the JS call yields `NaN`; the model returns
`0` there, and every theorem touching that case assumes a 4-character
tag so the default is never exercised. -/
def charCodeAt (s : List Char) (i : Nat) : Nat := ((s.get? i).map Char.toNat).getD 0

/-- The source's hue computation
`(s.mbti.charCodeAt(0) + s.mbti.charCodeAt(3)) % 360`. -/
def hueOf (mbti : List Char) : Nat := (charCodeAt mbti 0 + charCodeAt mbti 3) % 360

/-- The source's `maxD = mode === "wide" ? 2000 : 600`. -/
def maxDistance (mode : Mode) : ℝ := if mode = Mode.wide then 2000 else 600

/-- Result record of `markerStyle`: `{ opacity, radius, color, d }`.
The `color` string is `hsl(hue, 82%, 62%)`; its only data is the hue,
recorded here as `hue`. -/
structure Style where
  opacity : ℝ
  radius : ℝ
  hue : Nat
  d : ℝ

/-- The distance-to-style computation inside `markerStyle`:
`t = 1 - clamp(d / maxD, 0, 1)`, `opacity = 0.10 + t * 0.80`,
`radius = 5 + t * 10`, and the tag-derived hue. -/
noncomputable def styleFromDistance (mode : Mode) (d : ℝ) (mbti : List Char) : Style :=
  let t := 1 - clamp (d / maxDistance mode) 0 1
  { opacity := 0.10 + t * 0.80, radius := 5 + t * 10, hue := hueOf mbti, d := d }

/-- The source's `markerStyle(s)`, with the component's implicit state
(`mode`, `me`) passed explicitly: computes
`d = distanceMeters(me.lat, me.lng, s.lat, s.lng)` and styles by it. -/
noncomputable def markerStyle (mode : Mode) (meLat meLng : ℝ) (s : Spot) : Style :=
  styleFromDistance mode (distanceMeters meLat meLng s.lat s.lng) s.mbti

/-- Spot at a fixed location carrying a given id and tag, used for the
concrete scenario instances. -/
def demoSpot (i : String) (tag : String) : Spot :=
  { id := i, lat := 0, lng := 0, mbti := tag.toList }

/-- Inserting into a scored list is a permutation of consing. -/
theorem insertDesc_perm (x : Spot × Nat) (l : List (Spot × Nat)) :
    (insertDesc x l).Perm (x :: l) := by
  induction l with
  | nil => exact List.Perm.refl _
  | cons y ys ih =>
    simp only [insertDesc]
    by_cases h : y.2 ≤ x.2
    · rw [if_pos h]
    · rw [if_neg h]
      exact (ih.cons y).trans (List.Perm.swap x y ys)

/-- The stable descending sort permutes its input. -/
theorem sortDesc_perm (l : List (Spot × Nat)) : (sortDesc l).Perm l := by
  induction l with
  | nil => exact List.Perm.refl _
  | cons x xs ih => exact (insertDesc_perm x (sortDesc xs)).trans (ih.cons x)

/-- Insertion preserves the descending-by-score pairwise order. -/
theorem insertDesc_sorted (x : Spot × Nat) (l : List (Spot × Nat))
    (h : l.Pairwise fun a b => b.2 ≤ a.2) :
    (insertDesc x l).Pairwise fun a b => b.2 ≤ a.2 := by
  induction l with
  | nil => simp [insertDesc]
  | cons y ys ih =>
    rcases List.pairwise_cons.mp h with ⟨hy, hys⟩
    simp only [insertDesc]
    by_cases hc : y.2 ≤ x.2
    · rw [if_pos hc]
      refine List.pairwise_cons.mpr ⟨?_, h⟩
      intro z hz
      rcases List.mem_cons.mp hz with rfl | hz
      · exact hc
      · exact le_trans (hy z hz) hc
    · rw [if_neg hc]
      refine List.pairwise_cons.mpr ⟨?_, ih hys⟩
      intro z hz
      rw [(insertDesc_perm x ys).mem_iff] at hz
      rcases List.mem_cons.mp hz with rfl | hz
      · omega
      · exact hy z hz

/-- The stable descending sort is sorted: scores are pairwise descending. -/
theorem sortDesc_sorted (l : List (Spot × Nat)) :
    (sortDesc l).Pairwise fun a b => b.2 ≤ a.2 := by
  induction l with
  | nil => simp [sortDesc]
  | cons x xs ih => exact insertDesc_sorted x (sortDesc xs) ih

/-- Stability of insertion, expressed through score-classes: the
sublist of elements of any one score `k` is untouched by insertion. -/
theorem insertDesc_filter (x : Spot × Nat) (k : Nat) (l : List (Spot × Nat)) :
    (insertDesc x l).filter (fun y => y.2 = k) = (x :: l).filter (fun y => y.2 = k) := by
  induction l with
  | nil => rfl
  | cons y ys ih =>
    simp only [insertDesc]
    by_cases hc : y.2 ≤ x.2
    · rw [if_pos hc]
    · rw [if_neg hc]
      by_cases hx : x.2 = k <;> by_cases hy : y.2 = k
      · exfalso; omega
      · simp [List.filter_cons, hx, hy, ih]
      · simp [List.filter_cons, hx, hy, ih]
      · simp [List.filter_cons, hx, hy, ih]

/-- Stability of the sort: the elements of any one score `k` appear in
the sorted list exactly in their original relative order. -/
theorem sortDesc_filter (k : Nat) (l : List (Spot × Nat)) :
    (sortDesc l).filter (fun y => y.2 = k) = l.filter (fun y => y.2 = k) := by
  induction l with
  | nil => rfl
  | cons x xs ih =>
    show (insertDesc x (sortDesc xs)).filter _ = _
    rw [insertDesc_filter]
    simp only [List.filter_cons, ih]

/-- Every entry of the scored list carries the score of its own spot. -/
theorem mem_scoredList_snd (tag : List Char) (spots : List Spot) (x : Spot × Nat)
    (hx : x ∈ scoredList tag spots) : x.2 = vibeScore tag x.1.mbti := by
  have hm : x ∈ spots.map fun s => (s, vibeScore tag s.mbti) :=
    (sortDesc_perm _).mem_iff.mp hx
  rcases List.mem_map.mp hm with ⟨s, _, rfl⟩
  rfl

/-- Counting scored entries above a cutoff equals counting the spots
whose affinity is above that cutoff. -/
theorem scoredList_filter_length (tag : List Char) (spots : List Spot) (c : Nat) :
    ((scoredList tag spots).filter fun x => c ≤ x.2).length
      = (spots.filter fun s => c ≤ vibeScore tag s.mbti).length := by
  have h := ((sortDesc_perm (spots.map fun s => (s, vibeScore tag s.mbti))).filter
    (fun x => decide (c ≤ x.2))).length_eq
  unfold scoredList
  rw [h, List.filter_map, List.length_map]
  rfl

/-- One threshold branch of the filter, restricted to a single affinity
class `k`: it is the class itself when the cutoff admits `k`, and empty
otherwise. In particular the original relative order within every
affinity class survives the sort, the filter and the projection. -/
theorem scoredList_branch_filter (tag : List Char) (spots : List Spot) (c k : Nat) :
    ((((scoredList tag spots).filter fun x => c ≤ x.2).map Prod.fst).filter
        fun s => vibeScore tag s.mbti = k)
      = if c ≤ k then spots.filter fun s => vibeScore tag s.mbti = k else [] := by
  rw [List.filter_map, List.filter_filter]
  have hcong : ((scoredList tag spots).filter
        fun a => ((fun s => decide (vibeScore tag s.mbti = k)) ∘ Prod.fst) a
          && decide (c ≤ a.2))
      = (scoredList tag spots).filter fun a => decide (a.2 = k) && decide (c ≤ k) := by
    apply List.filter_congr
    intro x hx
    have hsc := mem_scoredList_snd tag spots x hx
    simp only [Function.comp]
    by_cases hk : x.2 = k
    · rw [← hsc, hk]
    · have hne : ¬ vibeScore tag x.1.mbti = k := by rw [← hsc]; exact hk
      simp [hk, hne]
  rw [hcong]
  by_cases hck : c ≤ k
  · rw [if_pos hck]
    have hband : ((scoredList tag spots).filter fun a => decide (a.2 = k) && decide (c ≤ k))
        = (scoredList tag spots).filter fun a => decide (a.2 = k) := by
      apply List.filter_congr
      intro x _
      simp [hck]
    rw [hband]
    unfold scoredList
    rw [sortDesc_filter, List.filter_map]
    have hpred : ((fun y : Spot × Nat => decide (y.2 = k))
        ∘ fun s => (s, vibeScore tag s.mbti)) = fun s => decide (vibeScore tag s.mbti = k) := rfl
    rw [hpred, List.map_map]
    have hid : (Prod.fst ∘ fun s : Spot => (s, vibeScore tag s.mbti)) = id := rfl
    rw [hid, List.map_id]
  · rw [if_neg hck]
    have hband : ((scoredList tag spots).filter fun a => decide (a.2 = k) && decide (c ≤ k))
        = [] := by
      rw [List.filter_eq_nil_iff]
      intro x _
      simp [hck]
    rw [hband]
    rfl

/-- In `near` mode the filter keeps at most the first 18 ranked spots. -/
theorem visibleSpots_near (tag : List Char) (spots : List Spot) :
    visibleSpots Mode.near tag spots = (rankedFiltered tag spots).take 18 := rfl

/-- In `"3m"` mode the filter keeps at most the first 5 ranked spots. -/
theorem visibleSpots_threeM (tag : List Char) (spots : List Spot) :
    visibleSpots Mode.threeM tag spots = (rankedFiltered tag spots).take 5 := rfl

/-- Every spot surviving the two-tier threshold has affinity at least 2. -/
theorem mem_rankedFiltered_two_le (tag : List Char) (spots : List Spot) (s : Spot)
    (hs : s ∈ rankedFiltered tag spots) : 2 ≤ vibeScore tag s.mbti := by
  simp only [rankedFiltered] at hs
  split at hs
  · rcases List.mem_map.mp hs with ⟨x, hxf, rfl⟩
    rcases List.mem_filter.mp hxf with ⟨hxm, hx2⟩
    have hsc := mem_scoredList_snd tag spots x hxm
    rw [← hsc]
    exact of_decide_eq_true hx2
  · rcases List.mem_map.mp hs with ⟨x, hxf, rfl⟩
    rcases List.mem_filter.mp hxf with ⟨hxm, hx3⟩
    have hsc := mem_scoredList_snd tag spots x hxm
    rw [← hsc]
    have := of_decide_eq_true hx3
    omega

/-- When ten or more spots already have affinity at least 3, the
threshold is not relaxed: every surviving spot has affinity at least 3. -/
theorem mem_rankedFiltered_three_le (tag : List Char) (spots : List Spot) (s : Spot)
    (h10 : 10 ≤ (spots.filter fun s => 3 ≤ vibeScore tag s.mbti).length)
    (hs : s ∈ rankedFiltered tag spots) : 3 ≤ vibeScore tag s.mbti := by
  simp only [rankedFiltered] at hs
  rw [if_neg ?_] at hs
  · rcases List.mem_map.mp hs with ⟨x, hxf, rfl⟩
    rcases List.mem_filter.mp hxf with ⟨hxm, hx3⟩
    have hsc := mem_scoredList_snd tag spots x hxm
    rw [← hsc]
    exact of_decide_eq_true hx3
  · rw [List.length_map, scoredList_filter_length]
    omega

/-- The two-tier filter output is ordered by descending affinity. -/
theorem rankedFiltered_sorted (tag : List Char) (spots : List Spot) :
    (rankedFiltered tag spots).Pairwise
      (fun a b => vibeScore tag b.mbti ≤ vibeScore tag a.mbti) := by
  have hp2 : (scoredList tag spots).Pairwise
      (fun a b => vibeScore tag b.1.mbti ≤ vibeScore tag a.1.mbti) := by
    refine List.Pairwise.imp_of_mem ?_ (sortDesc_sorted _)
    intro a b ha hb hab
    rw [← mem_scoredList_snd tag spots a ha, ← mem_scoredList_snd tag spots b hb]
    exact hab
  simp only [rankedFiltered]
  split
  · exact List.pairwise_map.mpr (hp2.sublist (List.filter_sublist _))
  · exact List.pairwise_map.mpr (hp2.sublist (List.filter_sublist _))

/-- Stability through the whole pipeline: restricted to any one
affinity class `k`, the two-tier filter output is a prefix of the input
restricted to that class (the class in original order, or nothing). -/
theorem rankedFiltered_filter_leading (tag : List Char) (spots : List Spot) (k : Nat) :
    ((rankedFiltered tag spots).filter fun s => vibeScore tag s.mbti = k)
      <+: (spots.filter fun s => vibeScore tag s.mbti = k) := by
  simp only [rankedFiltered]
  split
  · rw [scoredList_branch_filter]
    split
    · exact List.prefix_refl _
    · exact List.nil_prefix
  · rw [scoredList_branch_filter]
    split
    · exact List.prefix_refl _
    · exact List.nil_prefix

/-- Filtering a prefix taken from a list yields a prefix of the
filtered list. -/
theorem filter_take_leading (p : Spot → Bool) (l : List Spot) (n : Nat) :
    (l.take n).filter p <+: l.filter p := by
  conv_rhs => rw [← List.take_append_drop n l]
  rw [List.filter_append]
  exact List.prefix_append _ _

/-- C4: for every viewer tag and every spot sequence, `select` in wide
mode returns exactly the input spots — the very same list, hence the
same multiset, with no filtering, truncation, or dependence on affinity
or distance. -/
theorem C4_wide_returns_all (tag : List Char) (spots : List Spot) :
    visibleSpots Mode.wide tag spots = spots := rfl

/-- C2: `select` in near mode returns at most 18 spots and in focused
(`"3m"`) mode at most 5; every returned spot has affinity at least 2
with the viewer tag; and if at least 10 input spots have affinity at
least 3, no spot of affinity exactly 2 is returned — the threshold is
only relaxed when fewer than 10 spots reach affinity 3. -/
theorem C2_caps_and_thresholds (tag : List Char) (spots : List Spot) :
    (visibleSpots Mode.near tag spots).length ≤ 18
    ∧ (visibleSpots Mode.threeM tag spots).length ≤ 5
    ∧ (∀ s ∈ visibleSpots Mode.near tag spots, 2 ≤ vibeScore tag s.mbti)
    ∧ (∀ s ∈ visibleSpots Mode.threeM tag spots, 2 ≤ vibeScore tag s.mbti)
    ∧ (10 ≤ (spots.filter fun s => 3 ≤ vibeScore tag s.mbti).length →
        (∀ s ∈ visibleSpots Mode.near tag spots, vibeScore tag s.mbti ≠ 2)
        ∧ ∀ s ∈ visibleSpots Mode.threeM tag spots, vibeScore tag s.mbti ≠ 2) := by
  refine ⟨?_, ?_, ?_, ?_, ?_⟩
  · rw [visibleSpots_near]
    exact (rankedFiltered tag spots).length_take_le 18
  · rw [visibleSpots_threeM]
    exact (rankedFiltered tag spots).length_take_le 5
  · intro s hs
    rw [visibleSpots_near] at hs
    exact mem_rankedFiltered_two_le tag spots s (List.mem_of_mem_take hs)
  · intro s hs
    rw [visibleSpots_threeM] at hs
    exact mem_rankedFiltered_two_le tag spots s (List.mem_of_mem_take hs)
  · intro h10
    constructor
    · intro s hs
      rw [visibleSpots_near] at hs
      have := mem_rankedFiltered_three_le tag spots s h10 (List.mem_of_mem_take hs)
      omega
    · intro s hs
      rw [visibleSpots_threeM] at hs
      have := mem_rankedFiltered_three_le tag spots s h10 (List.mem_of_mem_take hs)
      omega

/-- C2 witness: on twelve identical INTJ spots seen by an INTJ viewer,
the ten-or-more hypothesis holds and the theorem applies: the spot in
the near-mode output does not have affinity 2. -/
theorem C2_caps_and_thresholds_witness :
    vibeScore "INTJ".toList (demoSpot "x" "INTJ").mbti ≠ 2 :=
  ((C2_caps_and_thresholds "INTJ".toList
      (List.replicate 12 (demoSpot "x" "INTJ"))).2.2.2.2 (by decide)).1
    (demoSpot "x" "INTJ")
    (by rw [show visibleSpots Mode.near "INTJ".toList
            (List.replicate 12 (demoSpot "x" "INTJ"))
          = List.replicate 12 (demoSpot "x" "INTJ") from rfl]
        exact List.mem_replicate.mpr ⟨by decide, rfl⟩)

/-- C3: in near and focused modes the returned spots are ordered by
descending affinity to the viewer tag, and within each affinity class
the output is a prefix of the input restricted to that class — the
original relative order among ties is preserved (stable sort), so the
output is a deterministic function of the input order. -/
theorem C3_sorted_and_stable (tag : List Char) (spots : List Spot) :
    ((visibleSpots Mode.near tag spots).Pairwise
        fun a b => vibeScore tag b.mbti ≤ vibeScore tag a.mbti)
    ∧ ((visibleSpots Mode.threeM tag spots).Pairwise
        fun a b => vibeScore tag b.mbti ≤ vibeScore tag a.mbti)
    ∧ (∀ k, ((visibleSpots Mode.near tag spots).filter fun s => vibeScore tag s.mbti = k)
        <+: (spots.filter fun s => vibeScore tag s.mbti = k))
    ∧ (∀ k, ((visibleSpots Mode.threeM tag spots).filter fun s => vibeScore tag s.mbti = k)
        <+: (spots.filter fun s => vibeScore tag s.mbti = k)) := by
  refine ⟨?_, ?_, ?_, ?_⟩
  · rw [visibleSpots_near]
    exact (rankedFiltered_sorted tag spots).sublist (List.take_sublist _ _)
  · rw [visibleSpots_threeM]
    exact (rankedFiltered_sorted tag spots).sublist (List.take_sublist _ _)
  · intro k
    rw [visibleSpots_near]
    exact (filter_take_leading _ _ _).trans (rankedFiltered_filter_leading tag spots k)
  · intro k
    rw [visibleSpots_threeM]
    exact (filter_take_leading _ _ _).trans (rankedFiltered_filter_leading tag spots k)

/-- C1 counterexample: the claimed affinity list `[4, 3, 0, 2]` is
wrong — `vibeScore "INTJ" "ENTJ"` is 3 (the tags agree at positions
1, 2 and 3), so the affinities are `[4, 3, 0, 3]`. -/
theorem C1_counterexample :
    (["INTJ", "INTP", "ESFP", "ENTJ"].map fun t => vibeScore "INTJ".toList t.toList)
      ≠ [4, 3, 0, 2] := by decide

/-- C1 amended: for viewer tag INTJ over spot tags
[INTJ, INTP, ESFP, ENTJ] the affinities are `[4, 3, 0, 3]`; fewer than
10 spots qualify under threshold 3, so the threshold relaxes to 2
(adding nothing here), and focused (`"3m"`) mode returns exactly the
ranked order [INTJ, INTP, ENTJ] with ESFP excluded, within the cap
of 5. -/
theorem C1_amended_scenario :
    (["INTJ", "INTP", "ESFP", "ENTJ"].map fun t => vibeScore "INTJ".toList t.toList)
      = [4, 3, 0, 3]
    ∧ (([demoSpot "a" "INTJ", demoSpot "b" "INTP", demoSpot "c" "ESFP",
        demoSpot "d" "ENTJ"].filter fun s => 3 ≤ vibeScore "INTJ".toList s.mbti).length < 10)
    ∧ (visibleSpots Mode.threeM "INTJ".toList
        [demoSpot "a" "INTJ", demoSpot "b" "INTP", demoSpot "c" "ESFP",
         demoSpot "d" "ENTJ"]).map Spot.mbti
      = ["INTJ".toList, "INTP".toList, "ENTJ".toList]
    ∧ (visibleSpots Mode.threeM "INTJ".toList
        [demoSpot "a" "INTJ", demoSpot "b" "INTP", demoSpot "c" "ESFP",
         demoSpot "d" "ENTJ"]).length ≤ 5 := by
  refine ⟨by decide, by decide, by decide, by decide⟩

/-- The affinity loop adds at most one per visited index. -/
theorem vibeScore_foldl_le (a b : List Char) (L : List Nat) (s : Nat) :
    L.foldl (fun s i => if a.get? i = b.get? i then s + 1 else s) s ≤ s + L.length := by
  induction L generalizing s with
  | nil => simp
  | cons j t ih =>
    rw [List.foldl_cons]
    refine le_trans (ih _) ?_
    simp only [List.length_cons]
    by_cases hj : a.get? j = b.get? j
    · rw [if_pos hj]
      omega
    · rw [if_neg hj]
      omega

/-- The affinity score never exceeds 4. -/
theorem vibeScore_le_four (a b : List Char) : vibeScore a b ≤ 4 := by
  unfold vibeScore
  simpa using vibeScore_foldl_le a b (List.range 4) 0

/-- The affinity score is symmetric in its two tags. -/
theorem vibeScore_comm (a b : List Char) : vibeScore a b = vibeScore b a := by
  have key : ∀ (L : List Nat) (s : Nat),
      L.foldl (fun s i => if a.get? i = b.get? i then s + 1 else s) s
        = L.foldl (fun s i => if b.get? i = a.get? i then s + 1 else s) s := by
    intro L
    induction L with
    | nil => intro s; rfl
    | cons j t ih =>
      intro s
      rw [List.foldl_cons, List.foldl_cons]
      rw [show (if a.get? j = b.get? j then s + 1 else s)
            = (if b.get? j = a.get? j then s + 1 else s) from by
          by_cases hj : a.get? j = b.get? j
          · rw [if_pos hj, if_pos hj.symm]
          · rw [if_neg hj, if_neg fun hh => hj hh.symm]]
      exact ih _
  exact key (List.range 4) 0

/-- Every tag has affinity 4 with itself (any list does: each of the
four compared positions trivially agrees with itself). -/
theorem vibeScore_self (a : List Char) : vibeScore a a = 4 := by
  simp [vibeScore, show List.range 4 = [0, 1, 2, 3] from rfl]

/-- A list of length 4 is a four-element literal. -/
theorem length_four_cases (l : List Char) (h : l.length = 4) :
    ∃ c0 c1 c2 c3, l = [c0, c1, c2, c3] := by
  rcases l with _ | ⟨c0, _ | ⟨c1, _ | ⟨c2, _ | ⟨c3, _ | ⟨c4, t⟩⟩⟩⟩⟩ <;>
    simp only [List.length_nil, List.length_cons] at h
  · omega
  · omega
  · omega
  · omega
  · exact ⟨c0, c1, c2, c3, rfl⟩
  · omega

/-- C5: on 4-character tags the affinity is exactly the number of the
four positions carrying equal characters (the spec's definition), it
lies in `[0, 4]`, it is symmetric, and every tag has affinity 4 with
itself. -/
theorem C5_affinity_counts_matches (a b : List Char)
    (ha : a.length = 4) (hb : b.length = 4) :
    vibeScore a b = specAffinity a b
    ∧ vibeScore a b ≤ 4
    ∧ vibeScore a b = vibeScore b a
    ∧ vibeScore a a = 4 := by
  refine ⟨?_, vibeScore_le_four a b, vibeScore_comm a b, vibeScore_self a⟩
  obtain ⟨a0, a1, a2, a3, rfl⟩ := length_four_cases a ha
  obtain ⟨b0, b1, b2, b3, rfl⟩ := length_four_cases b hb
  by_cases h0 : a0 = b0 <;> by_cases h1 : a1 = b1 <;> by_cases h2 : a2 = b2 <;>
    by_cases h3 : a3 = b3 <;>
    simp [vibeScore, specAffinity, h0, h1, h2, h3,
      show List.range 4 = [0, 1, 2, 3] from rfl]

/-- C5 witness: the theorem applied to the concrete tags INTJ and ENTP. -/
theorem C5_affinity_counts_matches_witness :
    vibeScore "INTJ".toList "ENTP".toList = specAffinity "INTJ".toList "ENTP".toList
    ∧ vibeScore "INTJ".toList "ENTP".toList ≤ 4
    ∧ vibeScore "INTJ".toList "ENTP".toList = vibeScore "ENTP".toList "INTJ".toList
    ∧ vibeScore "INTJ".toList "INTJ".toList = 4 :=
  C5_affinity_counts_matches "INTJ".toList "ENTP".toList (by decide) (by decide)

/-- C6: the haversine distance is symmetric, vanishes on coincident
coordinates (exactly, in the real-number model), and is non-negative;
`distanceMeters` is the haversine formula with Earth radius
6,371,000 m by definition. -/
theorem C6_distance_symm_zero_nonneg (aLat aLng bLat bLng : ℝ) :
    distanceMeters aLat aLng bLat bLng = distanceMeters bLat bLng aLat aLng
    ∧ distanceMeters aLat aLng aLat aLng = 0
    ∧ 0 ≤ distanceMeters aLat aLng bLat bLng := by
  refine ⟨?_, ?_, ?_⟩
  · unfold distanceMeters
    have hsin : ∀ u v : ℝ,
        Real.sin (toRad (u - v) / 2) ^ 2 = Real.sin (toRad (v - u) / 2) ^ 2 := by
      intro u v
      rw [show toRad (u - v) / 2 = -(toRad (v - u) / 2) from by unfold toRad; ring]
      rw [Real.sin_neg, neg_sq]
    rw [hsin bLat aLat, hsin bLng aLng,
      mul_comm (Real.cos (toRad aLat)) (Real.cos (toRad bLat))]
  · unfold distanceMeters toRad
    simp
  · unfold distanceMeters
    exact mul_nonneg (by norm_num) (Real.arcsin_nonneg.mpr (Real.sqrt_nonneg _))

/-- C7: the style always keeps opacity within `[0.10, 0.90]` and
radius within `[5, 15]`; the normalization is
`t = 1 - clamp(d / maxDistance, 0, 1)` with `maxDistance` 2000 m in
wide mode and 600 m otherwise; and at distance 300 m in near mode
`t = 0.5`, opacity `0.50`, radius `10`. -/
theorem C7_style_bounds_and_scenario (mode : Mode) (meLat meLng : ℝ) (s : Spot) :
    (markerStyle mode meLat meLng s).opacity
        = 0.10 + (1 - clamp (distanceMeters meLat meLng s.lat s.lng / maxDistance mode) 0 1)
            * 0.80
    ∧ (markerStyle mode meLat meLng s).radius
        = 5 + (1 - clamp (distanceMeters meLat meLng s.lat s.lng / maxDistance mode) 0 1) * 10
    ∧ maxDistance Mode.wide = 2000
    ∧ maxDistance Mode.near = 600
    ∧ maxDistance Mode.threeM = 600
    ∧ 0.10 ≤ (markerStyle mode meLat meLng s).opacity
    ∧ (markerStyle mode meLat meLng s).opacity ≤ 0.90
    ∧ 5 ≤ (markerStyle mode meLat meLng s).radius
    ∧ (markerStyle mode meLat meLng s).radius ≤ 15
    ∧ 1 - clamp ((300:ℝ) / maxDistance Mode.near) 0 1 = 0.5
    ∧ (styleFromDistance Mode.near 300 s.mbti).opacity = 0.50
    ∧ (styleFromDistance Mode.near 300 s.mbti).radius = 10 := by
  have h1 : ∀ z : ℝ, (0:ℝ) ≤ clamp z 0 1 := fun z => le_max_left 0 _
  have h2 : ∀ z : ℝ, clamp z 0 1 ≤ 1 := fun z => max_le (by norm_num) (min_le_left _ _)
  have ha := h1 (distanceMeters meLat meLng s.lat s.lng / maxDistance mode)
  have hb := h2 (distanceMeters meLat meLng s.lat s.lng / maxDistance mode)
  have hc : clamp ((300:ℝ) / maxDistance Mode.near) 0 1 = 0.5 := by
    rw [show maxDistance Mode.near = 600 from rfl]
    unfold clamp
    rw [show (300:ℝ) / 600 = 0.5 from by norm_num]
    rw [min_eq_right (by norm_num), max_eq_right (by norm_num)]
  refine ⟨rfl, rfl, rfl, rfl, rfl, ?_, ?_, ?_, ?_, by rw [hc]; norm_num, ?_, ?_⟩
  · simp only [markerStyle, styleFromDistance]
    nlinarith
  · simp only [markerStyle, styleFromDistance]
    nlinarith
  · simp only [markerStyle, styleFromDistance]
    nlinarith
  · simp only [markerStyle, styleFromDistance]
    nlinarith
  · simp only [styleFromDistance, hc]
    norm_num
  · simp only [styleFromDistance, hc]
    norm_num

/-- C8: the hue produced by `markerStyle` is a function of the spot's
tag alone — the same for every mode and viewer location — computed from
exactly the two character positions 0 and 3 of the tag, and is an
integer in `[0, 360)`. -/
theorem C8_hue_from_tag_alone (mode : Mode) (meLat meLng : ℝ) (s : Spot) :
    (markerStyle mode meLat meLng s).hue = hueOf s.mbti
    ∧ (markerStyle mode meLat meLng s).hue < 360
    ∧ (∀ t₁ t₂ : List Char, t₁.get? 0 = t₂.get? 0 → t₁.get? 3 = t₂.get? 3 →
        hueOf t₁ = hueOf t₂) := by
  refine ⟨rfl, Nat.mod_lt _ (by norm_num), ?_⟩
  intro t₁ t₂ h0 h3
  unfold hueOf charCodeAt
  rw [h0, h3]

/-- C8 witness: at a concrete mode, viewer location and spot, the hue
equals the tag's hue, and two tags agreeing at positions 0 and 3 get
equal hues. -/
theorem C8_hue_from_tag_alone_witness :
    (markerStyle Mode.near 0 0 (demoSpot "a" "INTJ")).hue = hueOf "INTJ".toList
    ∧ hueOf "INTJ".toList = hueOf "ISTJ".toList :=
  ⟨(C8_hue_from_tag_alone Mode.near 0 0 (demoSpot "a" "INTJ")).1,
   (C8_hue_from_tag_alone Mode.near 0 0 (demoSpot "a" "INTJ")).2.2
     "INTJ".toList "ISTJ".toList (by decide) (by decide)⟩

/-- C9: the hue depends only on tag positions 0 and 3 — tags agreeing
there share a hue even when they differ at positions 1 and 2 — and over
the 16 canonical tags only 4 distinct hue values occur (one per choice
of first character E/I and last character J/P). -/
theorem C9_four_hues (t₁ t₂ : List Char)
    (h0 : t₁.get? 0 = t₂.get? 0) (h3 : t₁.get? 3 = t₂.get? 3) :
    hueOf t₁ = hueOf t₂
    ∧ (MBTIS.map fun t => hueOf t.toList).dedup.length = 4
    ∧ (MBTIS.map fun t => hueOf t.toList).dedup = [147, 143, 153, 149] := by
  refine ⟨?_, by decide, by decide⟩
  unfold hueOf charCodeAt
  rw [h0, h3]

/-- C9 witness: ENTJ and ESTJ agree at positions 0 and 3 while
differing at position 1, and indeed get the same hue. -/
theorem C9_four_hues_witness :
    hueOf "ENTJ".toList = hueOf "ESTJ".toList
    ∧ (MBTIS.map fun t => hueOf t.toList).dedup.length = 4 :=
  ⟨(C9_four_hues "ENTJ".toList "ESTJ".toList (by decide) (by decide)).1,
   (C9_four_hues "ENTJ".toList "ESTJ".toList (by decide) (by decide)).2.1⟩

/-- C10 counterexample: the claim's parenthetical — out-of-range
character positions never count as a match — is false. On two empty
strings every one of the four compared positions is out of range on
both sides, `undefined === undefined` holds in JS, and the score is 4,
not 0. -/
theorem C10_counterexample :
    vibeScore ([] : List Char) [] = 4 ∧ vibeScore ([] : List Char) [] ≠ 0 := by
  exact ⟨by decide, by decide⟩

/-- C10 amended: the affinity function is total over arbitrary strings
and always returns an integer in `[0, 4]`; a position out of range of
exactly one string never counts as a match, but a position out of range
of both strings always counts (JS compares `undefined === undefined`),
so the score is the number of matching shared in-range positions plus
the number of positions 0..3 beyond both strings. -/
theorem C10_amended_total (a b : List Char) :
    vibeScore a b ≤ 4
    ∧ vibeScore a b = specAffinity a b + (4 - min (max a.length b.length) 4) := by
  refine ⟨vibeScore_le_four a b, ?_⟩
  rcases a with _ | ⟨a0, _ | ⟨a1, _ | ⟨a2, _ | ⟨a3, ta⟩⟩⟩⟩ <;>
    rcases b with _ | ⟨b0, _ | ⟨b1, _ | ⟨b2, _ | ⟨b3, tb⟩⟩⟩⟩ <;>
    simp [vibeScore, specAffinity, show List.range 4 = [0, 1, 2, 3] from rfl,
      List.length_cons] <;>
    split_ifs <;> simp_all
